import Mathlib

/-!
Shallow embedding of `src/os1shell.c` (a small interactive shell).

The embedding models, faithfully to the C source:
* the `strtok`-based tokenizer of `execcmd` (including the in-place buffer
  mutation: each delimiter that terminates an extracted token is overwritten
  with a NUL byte) and its bounded token array of `MAX_ARGS = 10` slots;
* the background-marker detection of `execcmd` (the C code inspects the last
  character of `tokens[0]` and, failing that, whether the final token is the
  one-character string consisting of the marker);
* the child registry: the global array `pid_t* children[32]` together with
  `numChildren`, and the functions `addChild` / `removeChild` / the SIGCHLD
  drain loop of `sig_handler`.  `removeChild`'s local `openIndex` is read
  before it is ever assigned; the embedding models that indeterminate initial
  value as 0 (any concrete value could be substituted; the counterexamples
  below are triggered before the flag is ever consulted).  `free(children[i])`
  releases the allocation but leaves the stale pointer in the array; the
  embedding keeps the slot's old pid value.
* the history ring buffer: `char* history[20]`, `histInd`, `recordcmd`,
  `printHistory`;
* the foreground wait loop `while( pid != wait(&status) );`, modelled over an
  explicit stream of reap reports handed out by successive `wait` calls;
* the per-line processing of `main`: newline replaced by NUL, then
  `recordcmd`, then `execcmd` (which mutates the shared input buffer).

Machine integers never overflow in the quantities modelled here (array
indices and counts stay far below 2^31), so `Nat` is used throughout.
-/

namespace OS1Shell

/-- `#define MAX_ARGS 10` -/
def MAX_ARGS : Nat := 10

/-- `#define HISTORY_SIZE 20` -/
def HISTORY_SIZE : Nat := 20

/-- Capacity of the global array `pid_t* children[32]`. -/
def CHILDREN_CAP : Nat := 32

/-! ## Tokenizer (`execcmd`, lines 148-157)

`strtok(cmd, " \r\n")` for the first call, `strtok(NULL, " ")` afterwards.
A `strtok` call skips leading delimiters, extracts the maximal run of
non-delimiter characters, and overwrites the single delimiter terminating
that run (when one exists) with a NUL byte; the next call resumes after it. -/

/-- The delimiter set of the first `strtok` call: `" \r\n"`. -/
def isDelim1 (c : Char) : Bool := c = ' ' || c = '\r' || c = '\n'

/-- The delimiter set of the subsequent `strtok` calls: `" "`. -/
def isDelim2 (c : Char) : Bool := c = ' '

/-- The NUL byte `strtok` writes over a consumed delimiter. -/
def charNul : Char := Char.ofNat 0

/-- One `strtok` call on buffer suffix `s`: returns `none` when only
delimiters remain (the scan writes nothing), otherwise
`some (token, mutated prefix, untouched rest)` where the mutated prefix is
the scanned leading delimiters, the token, and — when the token was stopped
by a delimiter rather than the end of the buffer — a NUL byte in place of
that delimiter. -/
def strtokCall (delim : Char → Bool) (s : List Char) :
    Option (List Char × List Char × List Char) :=
  let s1 := s.dropWhile delim
  if s1.isEmpty then none
  else
    let tok := s1.takeWhile (fun c => !delim c)
    match s1.drop tok.length with
    | [] => some (tok, s.takeWhile delim ++ tok, [])
    | _ :: rest => some (tok, s.takeWhile delim ++ tok ++ [charNul], rest)

/-- The token-collection loop of `execcmd`:

```
while( i < MAX_ARGS && token != NULL ) {
    tokens[i] = token;
    token = strtok(NULL, " ");
    i++;
}
```

`goTok fuel t pre rest` is invoked with the most recently extracted token
`t` still unstored, `pre` the buffer prefix already mutated by the call that
produced `t`, and `rest` the untouched buffer suffix.  `fuel` is
`MAX_ARGS - i`, so the loop guard `i < MAX_ARGS` is `fuel > 0`.  It returns
the tokens stored from this point on together with the final buffer contents
from `pre` onwards. -/
def goTok : Nat → List Char → List Char → List Char →
    List (List Char) × List Char
  | 0, _, pre, rest => ([], pre ++ rest)
  | fuel + 1, t, pre, rest =>
    match strtokCall isDelim2 rest with
    | none => ([t], pre ++ rest)
    | some (t2, pre2, rest2) =>
      let r := goTok fuel t2 pre2 rest2
      (t :: r.1, pre ++ r.2)

/-- Tokenization step of `execcmd`: the stored token array (in order) and
the buffer contents after all `strtok` calls.  The loop starts at `i = 0`,
so `goTok` receives fuel `MAX_ARGS`. -/
def execTokenize (cmd : List Char) : List (List Char) × List Char :=
  match strtokCall isDelim1 cmd with
  | none => ([], cmd)
  | some (t, pre, rest) => goTok MAX_ARGS t pre rest

/-- The stored tokens `tokens[0..i-1]` after the tokenization loop. -/
def tokenize (cmd : List Char) : List (List Char) := (execTokenize cmd).1

/-- The index `i` at which `execcmd` performs the terminating write
`tokens[i] = NULL` after the loop. -/
def nullWriteIndex (cmd : List Char) : Nat := (tokenize cmd).length

/-! ## Background-marker detection (`execcmd`, lines 159-167)

```
if( tokens[0][strlen(tokens[0])-1]=='&' ) {
    tokens[0][strlen(tokens[0])-1] = '\0';
    background = 1;
}
else if (tokens[i-1][0]=='&' && strlen(tokens[i-1])==1) {
    tokens[i-1] = NULL;
    background = 1;
}
```

When the token list is empty, `tokens[0]` holds the NULL terminator just
written by the loop, so `tokens[0][...]` dereferences a null pointer; the
embedding returns `none` for that undefined access.  Otherwise the result is
`some (argument vector, background flag)`; setting `tokens[i-1] = NULL`
truncates the argument vector before its final token. -/
def detectMarker (toks : List (List Char)) :
    Option (List (List Char) × Bool) :=
  match toks with
  | [] => none
  | t0 :: rest =>
    if t0.getLast? = some '&' then some (t0.dropLast :: rest, true)
    else if (t0 :: rest).getLast? = some ['&'] then
      some ((t0 :: rest).dropLast, true)
    else some (t0 :: rest, false)

/-- Tokenization followed by marker detection: the argument vector and
background flag `execcmd` computes for a command buffer. -/
def execParse (cmd : List Char) : Option (List (List Char) × Bool) :=
  detectMarker (tokenize cmd)

/-! ## Child registry (`children`, `numChildren`, `addChild`, `removeChild`)

The registry state between calls is the list of pid values
`*children[0], ..., *children[numChildren-1]` (slots at or beyond
`numChildren` are never read before being overwritten by `addChild`). -/

/-- `addChild` (lines 199-214): `children[numChildren++] = child;`.
No bounds check is performed; the store index is the current count. -/
def addChild (pid : Nat) (reg : List Nat) : List Nat := reg ++ [pid]

/-- The array index written by `addChild`'s store
`children[numChildren++] = child`. -/
def addChildStoreIndex (reg : List Nat) : Nat := reg.length

/-- The scan loop of `removeChild` (lines 224-233), carrying the array
contents `arr`, the live count `num`, the shift flag `openIndex`
(modelling its indeterminate initial value as 0) and the loop index `i`:

```
for(i = 0; i < numChildren; i++) {
    if( *(children[i]) == pid ) {
        free(children[i]);
        openIndex = i;
        numChildren--;
    }
    else if(openIndex) {
        children[i-1] = children[i];
    }
}
```

`fuel` starts at `num - i` and is consumed one unit per iteration; since
`i` increases and `num` never increases, `fuel ≥ num - i` holds throughout,
so `fuel = 0` implies the guard `i < num` is already false and the loop
exit at fuel 0 coincides with the C loop's exit. -/
def removeChildLoop (pid : Nat) :
    List Nat → Nat → Nat → Nat → Nat → List Nat × Nat
  | arr, num, _, _, 0 => (arr, num)
  | arr, num, oi, i, fuel + 1 =>
    if i < num then
      if arr.getD i 0 = pid then
        removeChildLoop pid arr (num - 1) i (i + 1) fuel
      else if oi ≠ 0 then
        removeChildLoop pid (arr.set (i - 1) (arr.getD i 0)) num oi (i + 1)
          fuel
      else
        removeChildLoop pid arr num oi (i + 1) fuel
    else (arr, num)

/-- `removeChild` (lines 220-234): run the scan loop over the tracked
entries (`i = 0`, so the fuel is `num`); the registry afterwards is the
first `numChildren` slots. -/
def removeChild (pid : Nat) (reg : List Nat) : List Nat :=
  let r := removeChildLoop pid reg reg.length 0 0 reg.length
  r.1.take r.2

/-- The SIGCHLD branch of `sig_handler` (lines 83-87): repeatedly
`waitpid(-1, &status, WNOHANG)` until it no longer reports a pid, removing
each reported pid.  `exited` is the stream of pids the non-blocking reaps
hand out before the call that returns no child. -/
def sigchldDrain (exited : List Nat) (reg : List Nat) : List Nat :=
  exited.foldl (fun r p => removeChild p r) reg

/-! ## Foreground wait (`execcmd`, lines 183-188)

```
if( !background ) {
    while( pid != wait(&status) );
}
else {
    addChild(pid);
}
```

`reports` is the stream of child pids successive `wait` calls report; the
loop consumes reports until one equals the spawned pid.  When the stream is
exhausted without reporting `pid`, the loop never exits (modelled `none`). -/
def fgWait (pid : Nat) : List Nat → Option (List Nat)
  | [] => none
  | p :: rest => if pid = p then some rest else fgWait pid rest

/-- The parent branch of `execcmd` after a successful fork: foreground runs
the wait loop (registry untouched), background registers the pid and
returns with the report stream untouched.  The result pairs the remaining
report stream (`none` if the wait loop never exits) with the registry. -/
def execParent (background : Bool) (pid : Nat) (reports reg : List Nat) :
    Option (List Nat) × List Nat :=
  if !background then (fgWait pid reports, reg)
  else (some reports, addChild pid reg)

/-! ## History ring buffer (`history`, `histInd`, `recordcmd`, `printHistory`)

`char* history[HISTORY_SIZE]` starts as null pointers; `histInd` starts 0. -/

/-- The globals `history` (slot `i` holds the stored line, or `none` for a
null pointer) and `histInd`. -/
structure HistState where
  history : List (Option String)
  histInd : Nat
  deriving DecidableEq

/-- Initial global state: all-null `history`, `histInd = 0`. -/
def initHist : HistState := ⟨List.replicate HISTORY_SIZE none, 0⟩

/-- The shared cursor increment `if( ++ind > HISTORY_SIZE-1 ) ind = 0;`
used by both `recordcmd` (line 112) and `printHistory` (line 128). -/
def bumpInd (i : Nat) : Nat :=
  if i + 1 > HISTORY_SIZE - 1 then 0 else i + 1

/-- `recordcmd` (lines 101-113): copy the command into a fresh allocation,
free the evicted entry, store the copy at `histInd`, advance the cursor.
(The size argument `sz` only sizes the allocation and is elided.) -/
def recordcmd (cmd : String) (s : HistState) : HistState :=
  ⟨s.history.set s.histInd (some cmd), bumpInd s.histInd⟩

/-- Fold `recordcmd` over a sequence of lines starting from the initial
global state. -/
def runHist (cmds : List String) : HistState :=
  cmds.foldl (fun s c => recordcmd c s) initHist

/-- The do-while of `printHistory` (lines 122-129) with explicit fuel: each
step prints the slot at the cursor when non-null and advances the cursor
with the shared wrap-around increment.  The C loop stops when the cursor
returns to `histInd`, i.e. (for `histInd < HISTORY_SIZE`, the invariant
established below) after exactly `HISTORY_SIZE` steps. -/
def printLoop (hist : List (Option String)) : Nat → Nat → List String
  | _, 0 => []
  | ind, n + 1 =>
    (hist.getD ind none).toList ++ printLoop hist (bumpInd ind) n

/-- `printHistory` (lines 117-130): emit the occupied slots starting at
`histInd`, wrapping once around the array. -/
def printHistory (s : HistState) : List String :=
  printLoop s.history s.histInd HISTORY_SIZE

/-- The sequence of array indices the `printHistory` cursor visits. -/
def printVisits (ind : Nat) : Nat → List Nat
  | 0 => []
  | n + 1 => ind :: printVisits (bumpInd ind) n

/-! ## Per-line processing in `main` (lines 50-57)

```
char *newline = strchr( buff, '\n' );
if ( newline ) *newline = '\0';
recordcmd(buff, r);
execcmd(buff);
```

`main` only reaches this block when `read` returned `r > 1` bytes and no
signal interrupted it. -/

/-- The guard `r > 1 && !interrupted` of `main` (line 50), with
`interrupted = 0`: whether a read of `r` bytes is dispatched. -/
def reachesDispatch (r : Nat) : Bool := decide (1 < r)

/-- `*strchr(buff, '\n') = '\0'`: as a C string, the buffer content becomes
everything before the first newline. -/
def stripNewline (buff : List Char) : List Char :=
  buff.takeWhile (fun c => c ≠ '\n')

/-- One iteration of `main`'s dispatch block on an input line: strip the
newline, record the (copied) line into the history, then run `execcmd`'s
tokenization, which mutates the shared buffer in place.  Returns the
history state and the buffer contents after dispatch. -/
def processLine (line : List Char) (st : HistState) : HistState × List Char :=
  let cmd := stripNewline line
  let st2 := recordcmd (String.mk cmd) st
  (st2, (execTokenize cmd).2)

/-! ## Theorems -/

/-- C1: the Child Registry does not implement set semantics.  Failing
sequence `register 10; register 20; unregister 10`: because `removeChild`
finds the pid at index 0 it sets `openIndex = 0`, the guard `if(openIndex)`
never fires, no entry is shifted down, and the decremented count drops the
final slot instead — the registry ends as `[10]` (the freed slot's stale
value still counted) rather than `{20}`: pid 20 is no longer tracked and
the unregistered pid still is. -/
theorem c1_unregister_loses_sibling :
    removeChild 10 (addChild 20 (addChild 10 [])) = [10] ∧
    20 ∉ removeChild 10 (addChild 20 (addChild 10 [])) ∧
    removeChild 10 (addChild 20 (addChild 10 [])) ≠ [20] := by decide

/-- C2: the dispatcher misses a background marker attached to the final
token of a multi-token command.  For input `sleep 10&` the final token
`10&` ends in the marker, yet `execcmd` inspects `tokens[0]` (`sleep`), the
standalone-token test also fails, and the command is flagged foreground
with its argument vector unchanged — the claim requires background with
the marker stripped. -/
theorem c2_attached_marker_on_final_token_missed :
    ("10&".data.getLast? = some '&') ∧
    execParse "sleep 10&".data =
      some (["sleep".data, "10&".data], false) := by decide

/-- C3: registering a 33rd child silently overflows the registry storage.
After 32 `addChild` calls `numChildren = 32`, and the next call's store
`children[numChildren++] = child` targets index 32, outside the 32-slot
array `pid_t* children[32]`; the growth promised by the comment in
`addChild` is not implemented. -/
theorem c3_thirty_third_register_overflows :
    addChildStoreIndex
        ((List.range CHILDREN_CAP).foldl (fun r p => addChild p r) []) =
      CHILDREN_CAP ∧
    ¬ addChildStoreIndex
        ((List.range CHILDREN_CAP).foldl (fun r p => addChild p r) []) <
      CHILDREN_CAP := by decide

/-- C4: on a line with `MAX_ARGS` (or more) tokens the tokenization loop
exits with `i = MAX_ARGS`, and the terminating write `tokens[i] = NULL`
targets index 10 of the 10-slot array `char* tokens[MAX_ARGS]` — out of
bounds, contradicting the claim that every tokenization write (including
the terminating null entry) stays within bounds. -/
theorem c4_terminating_null_write_out_of_bounds :
    nullWriteIndex "a b c d e f g h i j".data = MAX_ARGS ∧
    ¬ nullWriteIndex "a b c d e f g h i j".data < MAX_ARGS := by decide

/-- C5: a whitespace-only line is dispatched (it passes the `r > 1` guard
of `main`) and produces zero tokens, so the terminating write leaves
`tokens[0] = NULL` and the marker-detection expression
`tokens[0][strlen(tokens[0])-1]` dereferences a null pointer (`none` in
the embedding) instead of being a no-op. -/
theorem c5_blank_line_null_dereference :
    reachesDispatch 2 = true ∧
    tokenize (stripNewline [' ', '\n']) = [] ∧
    detectMarker (tokenize (stripNewline [' ', '\n'])) = none := by decide

/-- C7: the SIGCHLD drain loop does not leave the registry free of exited
children.  With children 10 and 20 registered and both already exited, the
handler reaps 10 then 20; removing 10 leaves the registry as `[10]`
(stale slot kept, 20 dropped — the `removeChild` fault), and removing 20
then finds no match, so the exited child 10 is still registered when the
handler returns. -/
theorem c7_drain_leaves_exited_child_registered :
    sigchldDrain [10, 20] (addChild 20 (addChild 10 [])) = [10] ∧
    10 ∈ sigchldDrain [10, 20] (addChild 20 (addChild 10 [])) := by decide

/-- C8: the foreground wait loop returns only once `wait` has reported the
spawned pid itself, consuming (and discarding) exactly the reports that
precede that pid's report; the background branch registers the pid and
returns with the report stream untouched. -/
theorem c8_fg_waits_for_its_own_pid (pid : Nat) (reports reg rest : List Nat)
    (h : fgWait pid reports = some rest) :
    (∃ pre, reports = pre ++ pid :: rest ∧ pid ∉ pre) ∧
    execParent false pid reports reg = (some rest, reg) ∧
    execParent true pid reports reg = (some reports, addChild pid reg) := by
  refine ⟨?_, by simp [execParent, h], by simp [execParent]⟩
  induction reports with
  | nil => simp [fgWait] at h
  | cons p rs ih =>
    by_cases hp : pid = p
    · subst hp
      simp [fgWait] at h
      exact ⟨[], by simp [h], by simp⟩
    · simp only [fgWait, if_neg hp] at h
      obtain ⟨pre, hpre, hmem⟩ := ih h
      exact ⟨p :: pre, by simp [hpre], by simp [List.mem_cons, hp, hmem]⟩

/-- Witness for C8 at a concrete input: spawned pid 5, report stream
`[3, 5, 7]`. -/
theorem c8_fg_waits_for_its_own_pid_witness :
    (∃ pre, ([3, 5, 7] : List Nat) = pre ++ 5 :: [7] ∧ 5 ∉ pre) ∧
    execParent false 5 [3, 5, 7] [] = (some [7], []) ∧
    execParent true 5 [3, 5, 7] [] = (some [3, 5, 7], addChild 5 []) :=
  c8_fg_waits_for_its_own_pid 5 [3, 5, 7] [] [7] (by decide)

/-- Helper: the wrap-around increment always lands inside the array. -/
theorem bumpInd_lt (i : Nat) : bumpInd i < HISTORY_SIZE := by
  simp only [bumpInd, HISTORY_SIZE]
  split <;> omega

/-- Helper: the cursor stays inside the array along any record sequence. -/
theorem foldl_record_histInd_lt (cmds : List String) (s : HistState)
    (h : s.histInd < HISTORY_SIZE) :
    (cmds.foldl (fun t c => recordcmd c t) s).histInd < HISTORY_SIZE := by
  induction cmds generalizing s with
  | nil => exact h
  | cons c cs ih =>
    simp only [List.foldl_cons]
    exact ih _ (bumpInd_lt _)

/-- Helper: recording never changes the length of the history array. -/
theorem foldl_record_length (cmds : List String) (s : HistState) :
    (cmds.foldl (fun t c => recordcmd c t) s).history.length =
      s.history.length := by
  induction cmds generalizing s with
  | nil => rfl
  | cons c cs ih =>
    simp only [List.foldl_cons]
    rw [ih]
    simp [recordcmd]

/-- C10: the write cursor starts at 0 and stays in `[0, 20)` along every
record sequence, each record advances it by one modulo the capacity, and
for any in-range start the print cursor visits each of the 20 slots
exactly once, staying in range, and is back at its start after the 20
increments of the do-while. -/
theorem c10_cursor_invariants (cmds : List String) (c : String)
    (s : HistState) (ind : Nat) :
    initHist.histInd = 0 ∧
    (runHist cmds).histInd < HISTORY_SIZE ∧
    (s.histInd < HISTORY_SIZE →
      (recordcmd c s).histInd = (s.histInd + 1) % HISTORY_SIZE) ∧
    (ind < HISTORY_SIZE →
      (printVisits ind HISTORY_SIZE).Perm (List.range HISTORY_SIZE) ∧
      (∀ j ∈ printVisits ind HISTORY_SIZE, j < HISTORY_SIZE) ∧
      bumpInd^[HISTORY_SIZE] ind = ind) := by
  refine ⟨rfl, foldl_record_histInd_lt cmds initHist (by decide), ?_, ?_⟩
  · intro h
    show bumpInd s.histInd = _
    simp only [bumpInd, HISTORY_SIZE] at h ⊢
    split <;> omega
  · intro h
    have h20 : ind < 20 := h
    interval_cases ind <;> exact ⟨by decide, by decide, by decide⟩

/-- Witness for C10 at concrete inputs: one recorded line, a fresh record
from the initial state, print cursor starting at slot 3. -/
theorem c10_cursor_invariants_witness :
    initHist.histInd = 0 ∧
    (runHist ["ls"]).histInd < HISTORY_SIZE ∧
    (recordcmd "pwd" initHist).histInd = (initHist.histInd + 1) % HISTORY_SIZE ∧
    ((printVisits 3 HISTORY_SIZE).Perm (List.range HISTORY_SIZE) ∧
      (∀ j ∈ printVisits 3 HISTORY_SIZE, j < HISTORY_SIZE) ∧
      bumpInd^[HISTORY_SIZE] 3 = 3) := by
  obtain ⟨h1, h2, h3, h4⟩ := c10_cursor_invariants ["ls"] "pwd" initHist 3
  exact ⟨h1, h2, h3 (by decide), h4 (by decide)⟩

/-- Helper: `takeWhile` runs through a whole prefix whose elements all
satisfy the predicate and stops at an element that does not. -/
theorem takeWhile_append_stop {p : Char → Bool} (core : List Char) (c : Char)
    (h : ∀ x ∈ core, p x = true) (hc : p c = false) :
    (core ++ [c]).takeWhile p = core := by
  induction core with
  | nil => simp [List.takeWhile_cons, hc]
  | cons a as ih =>
    have ha : p a = true := h a (List.mem_cons_self a as)
    simp only [List.cons_append, List.takeWhile_cons, ha, if_true]
    rw [ih fun x hx => h x (List.mem_cons_of_mem a hx)]

/-- C9: `main` records the line into the history before `execcmd`'s
in-place tokenization mutates the shared input buffer, so for every line
`core ++ "\n"` the stored history entry is exactly `core` — the line as
entered minus the trailing newline — even though `processLine` also
computes the strtok-mutated buffer from the same input. -/
theorem c9_history_entry_is_line_as_entered (core : List Char)
    (st : HistState) (hn : '\n' ∉ core) (hi : st.histInd < HISTORY_SIZE)
    (hl : st.history.length = HISTORY_SIZE) :
    ((processLine (core ++ ['\n']) st).1).history.getD st.histInd none =
      some (String.mk core) := by
  have hstrip : stripNewline (core ++ ['\n']) = core := by
    unfold stripNewline
    refine takeWhile_append_stop core '\n' ?_ (by simp)
    intro x hx
    simp only [decide_eq_true_eq]
    exact fun hEq => hn (hEq ▸ hx)
  simp only [processLine, hstrip, recordcmd]
  rw [List.getD_eq_getElem?_getD,
    List.getElem?_set_self (by omega)]
  rfl

/-- Witness for C9 at a concrete input: line `"ab cd\n"` recorded from the
initial state (where the tokenizer's mutation rewrites the buffer's space
to a NUL byte). -/
theorem c9_history_entry_is_line_as_entered_witness :
    ((processLine ("ab cd".data ++ ['\n']) initHist).1).history.getD
        initHist.histInd none =
      some (String.mk "ab cd".data) :=
  c9_history_entry_is_line_as_entered "ab cd".data initHist (by decide)
    (by decide) (by decide)

/-! ## Ring-buffer correctness (claim C6)

The proof abstracts a history state to the 20-slot window read in cursor
order, `history.drop histInd ++ history.take histInd`; `recordcmd` shifts
that window by one, and `printHistory` emits its occupied slots. -/

/-- Helper: `filterMap id` over a cons. -/
theorem filterMap_id_cons (o : Option String) (l : List (Option String)) :
    (o :: l).filterMap id = o.toList ++ l.filterMap id := by
  cases o <;> simp

/-- Helper: the print loop without cursor wrap-around reads the slots
`ind, ..., ind + n - 1`. -/
theorem printLoop_no_wrap (hist : List (Option String)) (n : Nat) :
    ∀ ind, hist.length = HISTORY_SIZE → ind + n ≤ HISTORY_SIZE →
      printLoop hist ind n = ((hist.drop ind).take n).filterMap id := by
  induction n with
  | zero => intro ind _ _; simp [printLoop]
  | succ n ih =>
    intro ind hlen hn
    have hindlt : ind < hist.length := by rw [hlen]; omega
    rw [List.drop_eq_getElem_cons hindlt, List.take_succ_cons,
      filterMap_id_cons]
    simp only [printLoop]
    rw [List.getD_eq_getElem hist none hindlt]
    congr 1
    by_cases hw : ind + 1 > HISTORY_SIZE - 1
    · have hn0 : n = 0 := by
        have h2 : 2 ≤ HISTORY_SIZE := by decide
        omega
      subst hn0
      simp [printLoop]
    · have hb : bumpInd ind = ind + 1 := by
        simp only [bumpInd, if_neg hw]
      rw [hb, ih (ind + 1) hlen (by omega)]

/-- Helper: the print loop with exactly one cursor wrap-around reads the
tail of the array from `ind` and then its first `m` slots. -/
theorem printLoop_wrap (hist : List (Option String)) (n : Nat) :
    ∀ ind m, hist.length = HISTORY_SIZE → ind + n = HISTORY_SIZE → 1 ≤ n →
      m ≤ ind →
      printLoop hist ind (n + m) =
        (hist.drop ind).filterMap id ++ printLoop hist 0 m := by
  induction n with
  | zero => intro ind m _ _ h1 _; omega
  | succ n ih =>
    intro ind m hlen hsum _ hm
    have hindlt : ind < hist.length := by rw [hlen]; omega
    have hstep : n + 1 + m = (n + m) + 1 := by omega
    rw [hstep]
    simp only [printLoop]
    rw [List.drop_eq_getElem_cons hindlt, filterMap_id_cons,
      List.getD_eq_getElem hist none hindlt, List.append_assoc]
    congr 1
    by_cases hz : n = 0
    · subst hz
      have hb : bumpInd ind = 0 := by
        simp only [bumpInd]
        rw [if_pos (by omega)]
      have hdrop : hist.drop (ind + 1) = [] :=
        List.drop_eq_nil_of_le (by omega)
      rw [hb, hdrop]
      simp
    · have hb : bumpInd ind = ind + 1 := by
        simp only [bumpInd]
        rw [if_neg (by omega)]
      rw [hb, ih (ind + 1) m hlen (by omega) (by omega) (by omega)]

/-- Helper: `printHistory` reads the array in rotated cursor order. -/
theorem printHistory_eq_rot (s : HistState)
    (hlen : s.history.length = HISTORY_SIZE)
    (hind : s.histInd < HISTORY_SIZE) :
    printHistory s =
      (s.history.drop s.histInd ++
        s.history.take s.histInd).filterMap id := by
  unfold printHistory
  by_cases h0 : s.histInd = 0
  · rw [h0, printLoop_no_wrap s.history HISTORY_SIZE 0 hlen (by omega)]
    simp only [List.drop_zero, List.take_zero, List.append_nil]
    rw [← hlen, List.take_length]
  · have hsplit : HISTORY_SIZE = (HISTORY_SIZE - s.histInd) + s.histInd := by
      omega
    rw [hsplit, printLoop_wrap s.history (HISTORY_SIZE - s.histInd)
      s.histInd s.histInd hlen (by omega) (by omega) le_rfl,
      List.filterMap_append]
    congr 1
    rw [printLoop_no_wrap s.history s.histInd 0 hlen (by omega)]
    simp

/-- Helper: recording a line shifts the cursor-ordered window by one and
appends the new entry at its end. -/
theorem rot_record (s : HistState) (c : String)
    (hlen : s.history.length = HISTORY_SIZE)
    (hind : s.histInd < HISTORY_SIZE) :
    (recordcmd c s).history.drop (recordcmd c s).histInd ++
      (recordcmd c s).history.take (recordcmd c s).histInd =
    (s.history.drop s.histInd ++ s.history.take s.histInd).drop 1 ++
      [some c] := by
  have hindlt : s.histInd < s.history.length := by rw [hlen]; exact hind
  have hset : s.history.set s.histInd (some c) =
      s.history.take s.histInd ++ some c :: s.history.drop (s.histInd + 1) := by
    rw [List.set_eq_take_append_cons_drop, if_pos hindlt]
  have htklen : (s.history.take s.histInd).length = s.histInd :=
    List.length_take_of_le (le_of_lt hindlt)
  have hdcons : s.history.drop s.histInd =
      s.history[s.histInd] :: s.history.drop (s.histInd + 1) :=
    List.drop_eq_getElem_cons hindlt
  simp only [recordcmd]
  by_cases hw : s.histInd + 1 > HISTORY_SIZE - 1
  · have hb : bumpInd s.histInd = 0 := by
      simp only [bumpInd]
      rw [if_pos hw]
    have hdropnil : s.history.drop (s.histInd + 1) = [] := by
      have h2 : 2 ≤ HISTORY_SIZE := by decide
      exact List.drop_eq_nil_of_le (by omega)
    rw [hb, hset, hdcons, hdropnil]
    simp
  · have hb : bumpInd s.histInd = s.histInd + 1 := by
      simp only [bumpInd]
      rw [if_neg hw]
    rw [hb, hset]
    have hdropset :
        (s.history.take s.histInd ++
          some c :: s.history.drop (s.histInd + 1)).drop (s.histInd + 1) =
        s.history.drop (s.histInd + 1) := by
      have := @List.drop_append _ (s.history.take s.histInd)
        (some c :: s.history.drop (s.histInd + 1)) 1
      rw [htklen] at this
      simpa using this
    have htakeset :
        (s.history.take s.histInd ++
          some c :: s.history.drop (s.histInd + 1)).take (s.histInd + 1) =
        s.history.take s.histInd ++ [some c] := by
      have := @List.take_append _ (s.history.take s.histInd)
        (some c :: s.history.drop (s.histInd + 1)) 1
      rw [htklen] at this
      simpa using this
    rw [hdropset, htakeset, hdcons, List.cons_append, List.drop_one,
      List.tail_cons, List.append_assoc]

/-- Helper abstraction: sliding-window step — drop the oldest slot, append
the new entry. -/
def shiftWin (a : List (Option String)) (c : String) : List (Option String) :=
  a.drop 1 ++ [some c]

/-- Helper abstraction: the cursor-ordered window after a record sequence,
computed at the window level. -/
def absRun (cmds : List String) : List (Option String) :=
  cmds.foldl shiftWin (List.replicate HISTORY_SIZE none)

/-- Helper: the concrete ring buffer refines the sliding window. -/
theorem rot_runHist (cmds : List String) :
    (runHist cmds).history.drop (runHist cmds).histInd ++
      (runHist cmds).history.take (runHist cmds).histInd = absRun cmds := by
  induction cmds using List.reverseRecOn with
  | nil => simp [runHist, initHist, absRun]
  | append_singleton cs c ih =>
    have hlen : (runHist cs).history.length = HISTORY_SIZE := by
      rw [runHist, foldl_record_length]
      simp [initHist]
    have hind : (runHist cs).histInd < HISTORY_SIZE :=
      foldl_record_histInd_lt cs initHist (by decide)
    have hrun : runHist (cs ++ [c]) = recordcmd c (runHist cs) := by
      simp [runHist, List.foldl_append]
    have habs : absRun (cs ++ [c]) = shiftWin (absRun cs) c := by
      simp [absRun, List.foldl_append]
    rw [hrun, habs, rot_record _ c hlen hind, ih, shiftWin]

/-- Helper: `filterMap id` erases a block of empty slots. -/
theorem filterMap_id_replicate_none (j : Nat) :
    (List.replicate j (none : Option String)).filterMap id = [] := by
  induction j with
  | zero => rfl
  | succ j ih => simp [List.replicate_succ, ih]

/-- Helper: closed form of the sliding window — leading empty slots
followed by the last `HISTORY_SIZE` lines. -/
theorem absRun_eq (cmds : List String) :
    absRun cmds =
      List.replicate (HISTORY_SIZE - cmds.length) (none : Option String) ++
        (cmds.drop (cmds.length - HISTORY_SIZE)).map some := by
  induction cmds using List.reverseRecOn with
  | nil => simp [absRun]
  | append_singleton cs c ih =>
    have habs : absRun (cs ++ [c]) = shiftWin (absRun cs) c := by
      simp [absRun, List.foldl_append]
    rw [habs, ih, shiftWin]
    by_cases hlt : cs.length < HISTORY_SIZE
    · have h1 : cs.length - HISTORY_SIZE = 0 := by omega
      have h2 : (cs ++ [c]).length - HISTORY_SIZE = 0 := by
        simp only [List.length_append, List.length_singleton]
        omega
      have h3 : HISTORY_SIZE - cs.length =
          (HISTORY_SIZE - (cs ++ [c]).length) + 1 := by
        simp only [List.length_append, List.length_singleton]
        omega
      rw [h1, h2, h3, List.replicate_succ]
      simp
    · have h0 : HISTORY_SIZE - cs.length = 0 := by omega
      have h0p : HISTORY_SIZE - (cs ++ [c]).length = 0 := by
        simp only [List.length_append, List.length_singleton]
        omega
      rw [h0, h0p]
      simp only [List.replicate_zero, List.nil_append]
      rw [← List.map_drop, List.drop_drop]
      have hd : (cs ++ [c]).drop ((cs ++ [c]).length - HISTORY_SIZE) =
          cs.drop (cs.length - HISTORY_SIZE + 1) ++ [c] := by
        rw [List.drop_append_eq_append_drop]
        have he : (cs ++ [c]).length - HISTORY_SIZE - cs.length = 0 := by
          simp only [List.length_append, List.length_singleton]
          have : 1 ≤ HISTORY_SIZE := by decide
          omega
        rw [he]
        simp only [List.drop_zero]
        congr 2
        simp only [List.length_append, List.length_singleton]
        have : 1 ≤ HISTORY_SIZE := by decide
        omega
      rw [hd]
      simp

/-- C6: after any sequence of recorded lines, `printHistory` yields all of
them in order of entry when at most 20 were recorded, and exactly the most
recent 20 in chronological order (oldest retained first, wrapping around
the circular cursor), none of the evicted ones, when more were. -/
theorem c6_print_yields_most_recent (cmds : List String) :
    (cmds.length ≤ HISTORY_SIZE → printHistory (runHist cmds) = cmds) ∧
    (HISTORY_SIZE < cmds.length →
      printHistory (runHist cmds) =
        cmds.drop (cmds.length - HISTORY_SIZE)) := by
  have hlen : (runHist cmds).history.length = HISTORY_SIZE := by
    rw [runHist, foldl_record_length]
    simp [initHist]
  have hind : (runHist cmds).histInd < HISTORY_SIZE :=
    foldl_record_histInd_lt cmds initHist (by decide)
  have hmain : printHistory (runHist cmds) =
      cmds.drop (cmds.length - HISTORY_SIZE) := by
    rw [printHistory_eq_rot _ hlen hind, rot_runHist, absRun_eq,
      List.filterMap_append, filterMap_id_replicate_none]
    rw [List.filterMap_map]
    simp [Function.comp_def, List.filterMap_some]
  refine ⟨fun h => ?_, fun _ => hmain⟩
  rw [hmain]
  have h0 : cmds.length - HISTORY_SIZE = 0 := by omega
  rw [h0, List.drop_zero]

/-- Witness for C6 at concrete inputs: 21 recorded lines print as the most
recent 20; two recorded lines print as themselves. -/
theorem c6_print_yields_most_recent_witness :
    printHistory (runHist ((List.range 21).map toString)) =
      ((List.range 21).map toString).drop
        (((List.range 21).map toString).length - HISTORY_SIZE) ∧
    printHistory (runHist ["ls", "pwd"]) = ["ls", "pwd"] :=
  ⟨(c6_print_yields_most_recent ((List.range 21).map toString)).2 (by decide),
   (c6_print_yields_most_recent ["ls", "pwd"]).1 (by decide)⟩

end OS1Shell
